import Mathlib

/-!
Verification of the UAS vehicle-communication core (UAS.cc).

The definitions below are a shallow embedding of the message-handling code of
the UAS class: machine integers of type quint64 are modelled as natural
numbers reduced modulo 2^64 where the code can wrap, float quantities are
modelled as exact rationals, and the Qt signal emissions are modelled as
explicit event lists.  Stateful member functions become functions from a
state structure (holding the member variables they touch) to an updated
state paired with their observable output.
-/

namespace UASModel

/-- Modulus of quint64 arithmetic. -/
def W : Nat := 2 ^ 64

/-- quint64 subtraction a - b modulo 2^64 (operands assumed below 2^64). -/
def usub64 (a b : Nat) : Nat := (a + (W - b % W)) % W

theorem usub64_of_le {a b : Nat} (hba : b ≤ a) (haW : a < W) : usub64 a b = a - b := by
  have hb : b % W = b := Nat.mod_eq_of_lt (lt_of_le_of_lt hba haW)
  have h1 : a + (W - b % W) = (a - b) + W := by
    rw [hb]
    have : b ≤ W := le_of_lt (lt_of_le_of_lt hba haW)
    omega
  rw [usub64, h1, Nat.add_mod_right, Nat.mod_eq_of_lt]
  omega

/-! Time reconciliation: UAS::getUnixTime (UAS.cc lines 1342-1394)

State touched by getUnixTime: the attitudeStamped flag and lastAttitude
timestamp, the established onboardTimeOffset (ms) and the last accepted raw
timestamp lastNonNullTime (us).  The current value of
QGC::groundTimeMilliseconds() is passed in as the argument groundMs. -/

structure ClockState where
  attitudeStamped : Bool
  lastAttitude : Nat
  onboardTimeOffset : Nat
  lastNonNullTime : Nat
deriving Repr, DecidableEq

/-- Forty years in microseconds, the threshold separating onboard-relative
counters from absolute Unix-epoch timestamps. -/
def fortyYearsUsec : Nat := 1261440000000000

/-- UAS::getUnixTime(quint64 time).  Returns the updated state and the
reconciled millisecond timestamp.  The local variable ret is first set to
lastAttitude when attitudeStamped is enabled (UAS.cc lines 1344-1348), but
every branch of the following if/else chain overwrites ret, so that
assignment is dead; the embedding reproduces this by discarding the value. -/
def getUnixTime (s : ClockState) (groundMs time : Nat) : ClockState × Nat :=
  let _ret : Nat := if s.attitudeStamped then s.lastAttitude else 0
  if time = 0 then
    (s, groundMs)
  else if time < fortyYearsUsec then
    let s1 :=
      if s.onboardTimeOffset = 0 ∨ time < usub64 s.lastNonNullTime 100 then
        { s with lastNonNullTime := time,
                 onboardTimeOffset := usub64 groundMs (time / 1000) }
      else s
    let s2 := if s1.lastNonNullTime < time then { s1 with lastNonNullTime := time } else s1
    (s2, (time / 1000 + s2.onboardTimeOffset) % W)
  else
    (s, time / 1000)

/-- The condition under which getUnixTime recomputes the onboard time offset
(the guard of UAS.cc line 1377, in the below-threshold branch). -/
def recomputes (s : ClockState) (time : Nat) : Prop :=
  s.onboardTimeOffset = 0 ∨ time < usub64 s.lastNonNullTime 100

instance (s : ClockState) (time : Nat) : Decidable (recomputes s time) := by
  unfold recomputes; infer_instance

/-- Fold getUnixTime over a sequence of (groundMs, rawTime) samples,
collecting the reconciled outputs. -/
def runUnixTime (s : ClockState) : List (Nat × Nat) → ClockState × List Nat
  | [] => (s, [])
  | (g, t) :: rest =>
    let p := getUnixTime s g t
    let q := runUnixTime p.1 rest
    (q.1, p.2 :: q.2)

/-- Number of offset recomputations performed while folding getUnixTime over
a sequence of samples (a recomputation happens only in the nonzero,
below-threshold branch). -/
def recomputeCount (s : ClockState) : List (Nat × Nat) → Nat
  | [] => 0
  | (g, t) :: rest =>
    (if 0 < t ∧ t < fortyYearsUsec ∧ recomputes s t then 1 else 0) +
      recomputeCount (getUnixTime s g t).1 rest

/-- C1: the claim states that with attitude-stamped mode enabled getUnixTime
returns the timestamp of the most recent attitude update for every non-zero
raw input.  The code contradicts its own doc comment: the assignment of
lastAttitude to ret is overwritten in every branch, so the computed value is
returned instead.  At the failing input below (attitudeStamped enabled,
lastAttitude 42, established offset 500, raw time 2000 us) the function
returns 2 + 500 = 502, not 42. -/
theorem c1_getUnixTime_attitudeStamped_dead :
    (getUnixTime ⟨true, 42, 500, 1000⟩ 999999 2000).2 = 502 ∧
      (getUnixTime ⟨true, 42, 500, 1000⟩ 999999 2000).2 ≠
        (ClockState.mk true 42 500 1000).lastAttitude := by
  constructor
  · rfl
  · intro h
    simp only [getUnixTime] at h
    revert h
    decide

/-- Evaluation of getUnixTime on a sample that is at or above the last
accepted raw value, with an established offset: no recomputation happens,
the sample becomes the last accepted value and the output is exact
(no quint64 wrap). -/
theorem getUnixTime_steady (s : ClockState) (g t : Nat)
    (ht0 : t ≠ 0) (hthr : t < fortyYearsUsec)
    (hoff : s.onboardTimeOffset ≠ 0)
    (hwrap : s.onboardTimeOffset + 1261440000000 < W)
    (hL : 100 ≤ s.lastNonNullTime) (hLW : s.lastNonNullTime < W)
    (hge : s.lastNonNullTime ≤ t) :
    getUnixTime s g t = ({ s with lastNonNullTime := t }, t / 1000 + s.onboardTimeOffset) ∧
      ¬ recomputes s t := by
  have hsub : usub64 s.lastNonNullTime 100 = s.lastNonNullTime - 100 :=
    usub64_of_le (by omega) hLW
  have hcond : ¬ (s.onboardTimeOffset = 0 ∨ t < usub64 s.lastNonNullTime 100) := by
    rw [hsub]; push_neg; exact ⟨hoff, by omega⟩
  have hdiv : t / 1000 < 1261440000000 := by
    have h1000 : (0 : Nat) < 1000 := by norm_num
    rw [Nat.div_lt_iff_lt_mul h1000]
    calc t < fortyYearsUsec := hthr
    _ ≤ 1261440000000 * 1000 := by norm_num [fortyYearsUsec]
  have hmod : (t / 1000 + s.onboardTimeOffset) % W = t / 1000 + s.onboardTimeOffset :=
    Nat.mod_eq_of_lt (by omega)
  refine ⟨?_, hcond⟩
  rw [getUnixTime]
  simp only [if_neg ht0, if_pos hthr, if_neg hcond]
  by_cases hlt : s.lastNonNullTime < t
  · simp only [if_pos hlt, hmod]
  · have ht : t = s.lastNonNullTime := by omega
    subst ht
    simp only [if_neg hlt, hmod]

/-- Folding getUnixTime over a non-decreasing run of valid raw samples that
starts at or above the established last accepted value performs no offset
recomputation and produces exactly the samples shifted by the established
offset. -/
theorem run_steady (ins : List (Nat × Nat)) : ∀ (s : ClockState),
    s.onboardTimeOffset ≠ 0 →
    s.onboardTimeOffset + 1261440000000 < W →
    100 ≤ s.lastNonNullTime →
    s.lastNonNullTime < W →
    (∀ p ∈ ins, 0 < p.2 ∧ p.2 < fortyYearsUsec) →
    List.Chain' (fun a b => a ≤ b) (ins.map Prod.snd) →
    (∀ t0 ∈ (ins.map Prod.snd).head?, s.lastNonNullTime ≤ t0) →
    recomputeCount s ins = 0 ∧
      (runUnixTime s ins).2 = ins.map (fun p => p.2 / 1000 + s.onboardTimeOffset) := by
  induction ins with
  | nil => intro s _ _ _ _ _ _ _; exact ⟨rfl, rfl⟩
  | cons p rest ih =>
    obtain ⟨g, t⟩ := p
    intro s hoff hwrap hL hLW hbounds hchain hhead
    have hbt : 0 < t ∧ t < fortyYearsUsec := hbounds (g, t) (List.mem_cons_self _ _)
    have hge : s.lastNonNullTime ≤ t := hhead t (by simp)
    obtain ⟨heval, hnorec⟩ :=
      getUnixTime_steady s g t (by omega) hbt.2 hoff hwrap hL hLW hge
    have htW : t < W := by
      have : fortyYearsUsec < W := by norm_num [fortyYearsUsec, W]
      omega
    have hheadrest : ∀ t0 ∈ (rest.map Prod.snd).head?, t ≤ t0 := by
      intro t0 ht0
      have := (List.chain'_cons'.mp (by simpa using hchain)).1
      exact this t0 ht0
    have hchainrest : List.Chain' (fun a b => a ≤ b) (rest.map Prod.snd) :=
      (List.chain'_cons'.mp (by simpa using hchain)).2
    have hrest := ih { s with lastNonNullTime := t } hoff hwrap
      (show 100 ≤ t by omega) htW
      (fun q hq => hbounds q (List.mem_cons_of_mem _ hq)) hchainrest hheadrest
    have hcnt : ¬ (0 < t ∧ t < fortyYearsUsec ∧ recomputes s t) := by
      rintro ⟨-, -, hr⟩; exact hnorec hr
    constructor
    · rw [recomputeCount, heval]
      simp only [hrest.1, if_neg hcnt]
    · rw [runUnixTime, heval]
      simp only [List.map_cons, hrest.2]

/-- A non-decreasing sequence of raw timestamps maps to non-decreasing
reconciled outputs under a fixed offset. -/
theorem chain_shift (ins : List (Nat × Nat)) (c : Nat)
    (h : List.Chain' (fun a b => a ≤ b) (ins.map Prod.snd)) :
    List.Chain' (fun a b => a ≤ b) (ins.map (fun p => p.2 / 1000 + c)) := by
  rw [List.chain'_map] at h ⊢
  exact h.imp fun a b hab => Nat.add_le_add_right (Nat.div_le_div_right hab) c

/-- C3 counterexample: the claim asserts that a raw sample more than 100
below the last accepted raw value triggers exactly one offset recomputation.
From an established state (offset 5, last accepted raw value 1000), the
non-decreasing below-threshold sample sequence 50, 60 recomputes the offset
twice: the backward jump to 50 recomputes once, but because lastNonNullTime
is then 50, the quint64 expression lastNonNullTime - 100 wraps to 2^64 - 50,
so the following sample 60 recomputes again. -/
theorem c3_backward_jump_counterexample :
    recomputeCount ⟨false, 0, 5, 1000⟩ [(10000, 50), (10001, 60)] = 2 := by
  decide

/-- C3 amended: once the offset is established (offset nonzero, last
accepted raw value at least 100), for a below-threshold sample t0 that is at
least 100 followed by a non-decreasing below-threshold run, the fold of
getUnixTime recomputes the offset exactly once when t0 is more than the
backward slack (100) below the last accepted value and never otherwise, and
its outputs are monotonically non-decreasing.  (The restriction of the jump
target t0 to values at least 100 is forced by the counterexample: below 100
the unsigned slack subtraction wraps and every subsequent sample
recomputes.) -/
theorem c3_monotone_recompute_amended
    (s : ClockState) (g0 t0 : Nat) (rest : List (Nat × Nat))
    (hoff : s.onboardTimeOffset ≠ 0)
    (hwrap : s.onboardTimeOffset + 1261440000000 < W)
    (hL0 : 100 ≤ s.lastNonNullTime) (hLW : s.lastNonNullTime < W)
    (ht0 : 100 ≤ t0) (ht0thr : t0 < fortyYearsUsec)
    (hg : t0 / 1000 < g0) (hgW : g0 + 1261440000000 < W)
    (hcase : s.lastNonNullTime ≤ t0 ∨ t0 + 100 < s.lastNonNullTime)
    (hrest : ∀ p ∈ rest, 0 < p.2 ∧ p.2 < fortyYearsUsec)
    (hchain : List.Chain' (fun a b => a ≤ b) (((g0, t0) :: rest).map Prod.snd)) :
    recomputeCount s ((g0, t0) :: rest) = (if s.lastNonNullTime ≤ t0 then 0 else 1) ∧
      List.Chain' (fun a b => a ≤ b) ((runUnixTime s ((g0, t0) :: rest)).2) := by
  have hins : ∀ p ∈ (g0, t0) :: rest, 0 < p.2 ∧ p.2 < fortyYearsUsec := by
    intro p hp
    rcases List.mem_cons.mp hp with h | h
    · subst h; exact ⟨by omega, ht0thr⟩
    · exact hrest p h
  rcases hcase with hle | hjump
  · -- no backward jump: the steady lemma applies to the whole run
    have hsteady := run_steady ((g0, t0) :: rest) s hoff hwrap hL0 hLW hins hchain
      (by intro x hx
          simp only [List.map_cons, List.head?_cons, Option.mem_def, Option.some.injEq] at hx
          omega)
    refine ⟨by rw [hsteady.1, if_pos hle], ?_⟩
    rw [hsteady.2]
    exact chain_shift _ _ hchain
  · -- backward jump: the first sample recomputes, the rest of the run is steady
    have hgWlt : g0 < W := by omega
    have hsubL : usub64 s.lastNonNullTime 100 = s.lastNonNullTime - 100 :=
      usub64_of_le (by omega) hLW
    have hrec : s.onboardTimeOffset = 0 ∨ t0 < usub64 s.lastNonNullTime 100 := by
      rw [hsubL]; right; omega
    have hsubg : usub64 g0 (t0 / 1000) = g0 - t0 / 1000 :=
      usub64_of_le (le_of_lt hg) hgWlt
    have hoff1 : g0 - t0 / 1000 ≠ 0 := by omega
    have ht0W : t0 < W := by
      have : fortyYearsUsec < W := by norm_num [fortyYearsUsec, W]
      omega
    have heval : getUnixTime s g0 t0 =
        ({ s with lastNonNullTime := t0, onboardTimeOffset := g0 - t0 / 1000 },
          g0) := by
      rw [getUnixTime]
      simp only [if_neg (show ¬ t0 = 0 by omega), if_pos ht0thr, if_pos hrec, hsubg]
      have : ¬ t0 < t0 := lt_irrefl t0
      simp only [if_neg this]
      have : (t0 / 1000 + (g0 - t0 / 1000)) % W = g0 := by
        have h1 : t0 / 1000 + (g0 - t0 / 1000) = g0 := by omega
        rw [h1, Nat.mod_eq_of_lt hgWlt]
      rw [this]
    have hchainrest : List.Chain' (fun a b => a ≤ b) (rest.map Prod.snd) :=
      (List.chain'_cons'.mp (by simpa using hchain)).2
    have hheadrest : ∀ x ∈ (rest.map Prod.snd).head?, t0 ≤ x :=
      (List.chain'_cons'.mp (by simpa using hchain)).1
    have hsteady := run_steady rest
      { s with lastNonNullTime := t0, onboardTimeOffset := g0 - t0 / 1000 }
      hoff1 (show g0 - t0 / 1000 + 1261440000000 < W by omega)
      (show 100 ≤ t0 by omega) ht0W hrest hchainrest hheadrest
    constructor
    · rw [recomputeCount, heval]
      have hone : (if 0 < t0 ∧ t0 < fortyYearsUsec ∧ recomputes s t0 then 1 else 0) = 1 :=
        if_pos ⟨by omega, ht0thr, hrec⟩
      rw [hone, hsteady.1, if_neg (by omega)]
    · rw [runUnixTime, heval]
      simp only [hsteady.2]
      rw [List.chain'_cons']
      refine ⟨?_, chain_shift rest (g0 - t0 / 1000) hchainrest⟩
      intro x hx
      rcases rest with _ | ⟨⟨g1, t1⟩, rest'⟩
      · simp at hx
      · simp only [List.map_cons, List.head?_cons, Option.mem_def, Option.some.injEq] at hx
        subst hx
        have ht01 : t0 ≤ t1 := hheadrest t1 (by simp)
        have := Nat.div_le_div_right (c := 1000) ht01
        omega

/-- C3 witness: the amended theorem applied to an established state with a
backward jump from last accepted value 1000 to sample 100, followed by a
sample 150. -/
theorem c3_monotone_recompute_witness :
    recomputeCount ⟨false, 0, 7, 1000⟩ [(5000, 100), (9999, 150)] =
        (if (1000 : Nat) ≤ 100 then 0 else 1) ∧
      List.Chain' (fun a b => a ≤ b)
        ((runUnixTime ⟨false, 0, 7, 1000⟩ [(5000, 100), (9999, 150)]).2) := by
  have h := c3_monotone_recompute_amended ⟨false, 0, 7, 1000⟩ 5000 100 [(9999, 150)]
    (by decide) (by norm_num [W]) (by decide) (by norm_num [W])
    (by decide) (by norm_num [fortyYearsUsec]) (by decide) (by norm_num [W])
    (by right; decide)
    (by intro p hp; simp only [List.mem_singleton] at hp; subst hp
        exact ⟨by decide, by norm_num [fortyYearsUsec]⟩)
    (by norm_num [List.chain'_cons])
  exact h

/-! Connection-loss detection: UAS::updateState (UAS.cc lines 252-287)

updateState is invoked periodically by the status timer.  It compares the
elapsed time since the last heartbeat against the heartbeat timeout.  The
audio announcements and the heartbeatTimeout signal emissions are modelled
as an ordered event list. -/

inductive LinkEvent where
  | sayLinkLost
  | heartbeatTimeoutTrue (elapsedMs : Nat)
  | sayLinkRegained
  | heartbeatTimeoutFalse
deriving Repr, DecidableEq

structure LinkHealth where
  connectionLost : Bool
  receivedMode : Bool
  connectionLossTime : Nat
deriving Repr, DecidableEq

/-- UAS::updateState.  nowUsec is QGC::groundTimeUsecs(), lastHeartbeat and
the heartbeat timeout are in microseconds.  The three ifs of the source run
in order and the first may enable the second within the same call. -/
def updateState (s : LinkHealth) (nowUsec lastHeartbeat tmo : Nat) :
    LinkHealth × List LinkEvent :=
  let heartbeatInterval := usub64 nowUsec lastHeartbeat
  let p1 : LinkHealth × List LinkEvent :=
    if ¬ s.connectionLost ∧ heartbeatInterval > tmo then
      ({ s with connectionLost := true, receivedMode := false }, [LinkEvent.sayLinkLost])
    else (s, [])
  let p2 : LinkHealth × List LinkEvent :=
    if p1.1.connectionLost ∧ heartbeatInterval > tmo then
      ({ p1.1 with connectionLossTime := heartbeatInterval },
        p1.2 ++ [LinkEvent.heartbeatTimeoutTrue (heartbeatInterval / 1000)])
    else p1
  if p2.1.connectionLost ∧ heartbeatInterval < tmo then
    ({ p2.1 with connectionLost := false, connectionLossTime := 0 },
      p2.2 ++ [LinkEvent.sayLinkRegained, LinkEvent.heartbeatTimeoutFalse])
  else p2

/-- Fold updateState over a sequence of (nowUsec, lastHeartbeat, timeout)
check instants, concatenating the emitted events. -/
def runUpdateState (s : LinkHealth) : List (Nat × Nat × Nat) → LinkHealth × List LinkEvent
  | [] => (s, [])
  | (now, lhb, tmo) :: rest =>
    let p := updateState s now lhb tmo
    let q := runUpdateState p.1 rest
    (q.1, p.2 ++ q.2)

/-- True exactly on the connection-loss notification heartbeatTimeout(true). -/
def isTimeoutTrue : LinkEvent → Bool
  | LinkEvent.heartbeatTimeoutTrue _ => true
  | _ => false

/-- C4 counterexample: the claim asserts the connection-loss notification
fires exactly once per transition into the lost state, with no duplicate
signaling while the link remains lost.  Two consecutive periodic checks with
the heartbeat 600 ms overdue against a 500 ms timeout are a single
transition into the lost state, yet heartbeatTimeout(true) is emitted at
both checks: the second if of updateState re-emits it on every iteration
while the link stays lost. -/
theorem c4_duplicate_timeout_counterexample :
    (runUpdateState ⟨false, true, 0⟩
        [(600000, 0, 500000), (1200000, 0, 500000)]).2.countP isTimeoutTrue = 2 ∧
      (runUpdateState ⟨false, true, 0⟩
        [(600000, 0, 500000), (1200000, 0, 500000)]).2.countP
          (fun e => e = LinkEvent.sayLinkLost) = 1 := by
  constructor <;> rfl

/-- C4 amended: while heartbeats arrive within the timeout no loss
notification of any kind is emitted; the transition into the lost state
emits the audio link-lost alert together with one heartbeatTimeout(true);
every further periodic check while the link remains lost re-emits
heartbeatTimeout(true) with the refreshed elapsed time (the audio alert is
not repeated); the transition out of the lost state emits the link-regained
alert and heartbeatTimeout(false) exactly once. -/
theorem c4_connection_loss_amended (s : LinkHealth) (now lhb tmo : Nat) :
    (¬ s.connectionLost → usub64 now lhb ≤ tmo →
      updateState s now lhb tmo = (s, [])) ∧
    (¬ s.connectionLost → usub64 now lhb > tmo →
      updateState s now lhb tmo =
        (⟨true, false, usub64 now lhb⟩,
          [LinkEvent.sayLinkLost, LinkEvent.heartbeatTimeoutTrue (usub64 now lhb / 1000)])) ∧
    (s.connectionLost → usub64 now lhb > tmo →
      updateState s now lhb tmo =
        ({ s with connectionLossTime := usub64 now lhb },
          [LinkEvent.heartbeatTimeoutTrue (usub64 now lhb / 1000)])) ∧
    (s.connectionLost → usub64 now lhb < tmo →
      updateState s now lhb tmo =
        ({ s with connectionLost := false, connectionLossTime := 0 },
          [LinkEvent.sayLinkRegained, LinkEvent.heartbeatTimeoutFalse])) := by
  obtain ⟨cl, rm, clt⟩ := s
  refine ⟨?_, ?_, ?_, ?_⟩
  · intro hnl hle
    have hcl : cl = false := by
      cases cl
      · rfl
      · exact absurd rfl hnl
    subst hcl
    have h1 : ¬ tmo < usub64 now lhb := not_lt.mpr hle
    simp [updateState, h1]
  · intro hnl hgt
    have hcl : cl = false := by
      cases cl
      · rfl
      · exact absurd rfl hnl
    subst hcl
    simp [updateState, hgt, lt_asymm hgt]
  · intro hl hgt
    have hcl : cl = true := hl
    subst hcl
    simp [updateState, hgt, lt_asymm hgt]
  · intro hl hlt
    have hcl : cl = true := hl
    subst hcl
    simp [updateState, hlt, lt_asymm hlt]

/-- C4 witness: the amended theorem applied to a healthy link whose
heartbeat became 600 ms overdue against a 500 ms timeout. -/
theorem c4_connection_loss_witness :
    updateState ⟨false, true, 0⟩ 600000 0 500000 =
      (⟨true, false, usub64 600000 0⟩,
        [LinkEvent.sayLinkLost, LinkEvent.heartbeatTimeoutTrue (usub64 600000 0 / 1000)]) :=
  (c4_connection_loss_amended ⟨false, true, 0⟩ 600000 0 500000).2.1
    (by decide) (by decide)

/-! Message dispatch: UAS::receiveMessage (UAS.cc lines 289-372)

The component-name registry (the QMap components, modelled by its key list),
the system-id / attitude-stamped acceptance gate, the per-message-type
component-ownership arrays componentID / componentMulti (modelled as
functions from message id), and the heartbeat handler with its
multi-source guard. -/

/-- MAVLink component id of the secondary IMU (MAV_COMP_ID_IMU_2). -/
def MAV_COMP_ID_IMU_2 : Nat := 201

/-- MAVLink message id of HEARTBEAT. -/
def MAVLINK_MSG_ID_HEARTBEAT : Nat := 0

/-- MAVLink message id of ATTITUDE. -/
def MAVLINK_MSG_ID_ATTITUDE : Nat := 30

/-- First part of UAS::receiveMessage (UAS.cc lines 289-327): every message,
whatever its system id, registers a previously unseen component id in the
components map; the message body is then processed only when the system id
matches and the attitude-stamped gate passes.  Returns the updated registry
key list and whether the body is processed. -/
def receiveMessagePre (uasId : Nat) (components : List Nat)
    (attitudeStamped : Bool) (lastAttitude : Nat)
    (sysid compid msgid : Nat) : List Nat × Bool :=
  let components := if compid ∈ components then components else components ++ [compid]
  (components,
    decide (sysid = uasId) &&
      (!attitudeStamped || (attitudeStamped && decide (lastAttitude ≠ 0)) ||
        decide (msgid = MAVLINK_MSG_ID_ATTITUDE)))

/-- C9 counterexample: the claim asserts that a message whose system id does
not match changes no field of the dispatcher, including the component
registry.  A message from system 2 received by the dispatcher bound to
system 1, carrying the unseen component id 5, is not processed but still
inserts 5 into the component registry: the registration happens before the
system-id check. -/
theorem c9_registry_counterexample :
    receiveMessagePre 1 [] false 0 2 5 0 = ([5], false) := by
  decide

/-- C9 amended: a message whose system id does not match the bound vehicle
is not processed (no vehicle-state update, no ownership-record change, no
notification), but the component-name registry still records a previously
unseen component id, since that registration precedes the system-id
check. -/
theorem c9_sysid_filter_amended (uasId : Nat) (components : List Nat)
    (attitudeStamped : Bool) (lastAttitude : Nat) (sysid compid msgid : Nat)
    (h : sysid ≠ uasId) :
    (receiveMessagePre uasId components attitudeStamped lastAttitude sysid compid msgid).2 =
        false ∧
      (receiveMessagePre uasId components attitudeStamped lastAttitude sysid compid msgid).1 =
        (if compid ∈ components then components else components ++ [compid]) := by
  constructor
  · simp [receiveMessagePre, h]
  · rfl

/-- C9 witness: the amended theorem at the counterexample input. -/
theorem c9_sysid_filter_witness :
    (receiveMessagePre 1 [] false 0 2 5 0).2 = false ∧
      (receiveMessagePre 1 [] false 0 2 5 0).1 =
        (if 5 ∈ ([] : List Nat) then ([] : List Nat) else [] ++ [5]) :=
  c9_sysid_filter_amended 1 [] false 0 2 5 0 (by decide)

/-- State touched by the ownership preamble and the heartbeat handler:
componentID maps each message id to the owning component id (-1 when not
yet established), componentMulti flags message ids seen from several
components, lastHeartbeat is the ground time of the last accepted
heartbeat. -/
structure HeartbeatState where
  componentID : Nat → Int
  componentMulti : Nat → Bool
  lastHeartbeat : Nat

/-- Component-ownership preamble of UAS::receiveMessage (UAS.cc lines
335-362) followed by the start of the HEARTBEAT case (lines 367-373): a
message from the secondary IMU always seizes ownership; otherwise the first
component seen becomes the owner and a later different component sets the
multi-source flag and counts as the wrong component; the heartbeat state
update is skipped when a multi-source conflict is detected and this message
is from the wrong component.  Returns the new state and whether the
heartbeat was accepted. -/
def receiveHeartbeat (s : HeartbeatState) (compid nowUsec : Nat) :
    HeartbeatState × Bool :=
  let cid :=
    if compid = MAV_COMP_ID_IMU_2 then
      Function.update s.componentID MAVLINK_MSG_ID_HEARTBEAT ((MAV_COMP_ID_IMU_2 : Nat) : Int)
    else s.componentID
  let r :
      (Nat → Int) × (Nat → Bool) × Bool :=
    if cid MAVLINK_MSG_ID_HEARTBEAT = -1 then
      (Function.update cid MAVLINK_MSG_ID_HEARTBEAT ((compid : Nat) : Int), s.componentMulti, false)
    else if cid MAVLINK_MSG_ID_HEARTBEAT ≠ (compid : Int) then
      (cid, Function.update s.componentMulti MAVLINK_MSG_ID_HEARTBEAT true, true)
    else
      (cid, s.componentMulti, false)
  let multiComponentSourceDetected := r.2.1 MAVLINK_MSG_ID_HEARTBEAT
  let wrongComponent := r.2.2
  if multiComponentSourceDetected ∧ wrongComponent then
    ({ componentID := r.1, componentMulti := r.2.1, lastHeartbeat := s.lastHeartbeat }, false)
  else
    ({ componentID := r.1, componentMulti := r.2.1, lastHeartbeat := nowUsec }, true)

/-- C2 counterexample: the claim asserts that once a component owns a
message type, a message of that type from any different component sets the
multi-source conflict flag and does not alter the vehicle state.  With
component 1 established as the owner of HEARTBEAT, a heartbeat from the
secondary IMU (component 201) silently seizes ownership instead: the
conflict flag stays clear, the ownership record changes to 201, and the
heartbeat is accepted, updating lastHeartbeat. -/
theorem c2_imu2_counterexample :
    ((receiveHeartbeat
        ⟨fun m => if m = MAVLINK_MSG_ID_HEARTBEAT then 1 else -1, fun _ => false, 0⟩
        MAV_COMP_ID_IMU_2 777).1.componentMulti MAVLINK_MSG_ID_HEARTBEAT = false) ∧
      ((receiveHeartbeat
        ⟨fun m => if m = MAVLINK_MSG_ID_HEARTBEAT then 1 else -1, fun _ => false, 0⟩
        MAV_COMP_ID_IMU_2 777).1.componentID MAVLINK_MSG_ID_HEARTBEAT = 201) ∧
      ((receiveHeartbeat
        ⟨fun m => if m = MAVLINK_MSG_ID_HEARTBEAT then 1 else -1, fun _ => false, 0⟩
        MAV_COMP_ID_IMU_2 777).1.lastHeartbeat = 777) := by
  refine ⟨?_, ?_, ?_⟩ <;> decide

/-- C2 amended: once component A is established as the owner of HEARTBEAT,
a heartbeat from a different component B other than the secondary IMU
(component 201, which always seizes ownership) sets the multi-source
conflict flag and leaves lastHeartbeat unchanged, while a heartbeat from
the owner A itself is accepted and updates lastHeartbeat. -/
theorem c2_ownership_conflict_amended (cid : Nat → Int) (cm : Nat → Bool)
    (lhb A B now now' : Nat)
    (hA : cid MAVLINK_MSG_ID_HEARTBEAT = (A : Int))
    (hBA : B ≠ A) (hB2 : B ≠ MAV_COMP_ID_IMU_2) :
    ((receiveHeartbeat ⟨cid, cm, lhb⟩ B now).1.componentMulti MAVLINK_MSG_ID_HEARTBEAT
        = true) ∧
      ((receiveHeartbeat ⟨cid, cm, lhb⟩ B now).1.lastHeartbeat = lhb) ∧
      ((receiveHeartbeat ⟨cid, cm, lhb⟩ A now').1.lastHeartbeat = now') := by
  have hAne : cid MAVLINK_MSG_ID_HEARTBEAT ≠ -1 := by
    rw [hA]; omega
  have hBne : cid MAVLINK_MSG_ID_HEARTBEAT ≠ (B : Int) := by
    rw [hA]
    intro h
    exact hBA (by exact_mod_cast h.symm)
  refine ⟨?_, ?_, ?_⟩
  · rw [receiveHeartbeat]
    simp [if_neg hB2, if_neg hAne, if_pos hBne, Function.update_same]
  · rw [receiveHeartbeat]
    simp [if_neg hB2, if_neg hAne, if_pos hBne, Function.update_same]
  · rw [receiveHeartbeat]
    by_cases hA2 : A = MAV_COMP_ID_IMU_2
    · subst hA2
      simp [Function.update_same, MAV_COMP_ID_IMU_2]
    · simp [if_neg hA2, if_neg hAne, hA]

/-- C2 witness: the amended theorem with owner 1 established for HEARTBEAT
and a conflicting heartbeat from component 2. -/
theorem c2_ownership_conflict_witness :
    ((receiveHeartbeat
        ⟨fun m => if m = MAVLINK_MSG_ID_HEARTBEAT then 1 else -1, fun _ => false, 5⟩
        2 888).1.componentMulti MAVLINK_MSG_ID_HEARTBEAT = true) ∧
      ((receiveHeartbeat
        ⟨fun m => if m = MAVLINK_MSG_ID_HEARTBEAT then 1 else -1, fun _ => false, 5⟩
        2 888).1.lastHeartbeat = 5) ∧
      ((receiveHeartbeat
        ⟨fun m => if m = MAVLINK_MSG_ID_HEARTBEAT then 1 else -1, fun _ => false, 5⟩
        1 999).1.lastHeartbeat = 999) :=
  c2_ownership_conflict_amended
    (fun m => if m = MAVLINK_MSG_ID_HEARTBEAT then 1 else -1) (fun _ => false)
    5 1 2 888 999 (by decide) (by decide) (by decide)

/-! Battery tick alarm: SYS_STATUS handling (UAS.cc lines 491-518)

The float voltage filters are modelled as exact rationals (the float
literals 0.6f, 0.4f, 0.8f, 0.2f, 0.1f, 3.3f, 0.2f become the corresponding
rationals); the 20-second cooldown comparison is quint64 arithmetic on
microsecond ground times. -/

structure BatteryState where
  startVoltage : ℚ
  tickVoltage : ℚ
  lastTickVoltageValue : ℚ
  tickLowpassVoltage : ℚ
  lpVoltage : ℚ
  currentVoltage : ℚ
  lastVoltageWarning : Nat
deriving Repr, DecidableEq

/-- UAS::filterVoltage: seed the lowpass with the first sample, then apply
lp = lp * 0.6 + value * 0.4. -/
def filterVoltage (lp value : ℚ) : ℚ :=
  let lp := if lp < 0 then value else lp
  lp * (6/10) + value * (4/10)

/-- The battery portion of the SYS_STATUS case of UAS::receiveMessage.
voltage_battery is the raw millivolt field (uint16), nowUsec is
QGC::groundTimeUsecs().  Returns the updated state and whether the
low-battery voice alert fired.  Note the start-voltage seeding happens
after the alert check, and the tick tracker is pulled up to the lowpass
whenever the lowpass is above the tick threshold. -/
def sysStatusBattery (s : BatteryState) (voltage_battery nowUsec : Nat) :
    BatteryState × Bool :=
  if 0 < voltage_battery ∧ voltage_battery ≠ 65535 then
    let currentVoltage : ℚ := (voltage_battery : ℚ) / 1000
    let lpVoltage := filterVoltage s.lpVoltage currentVoltage
    let tickLowpassVoltage := s.tickLowpassVoltage * (8/10) + (2/10) * currentVoltage
    let lastTickVoltageValue :=
      if tickLowpassVoltage > s.tickVoltage then tickLowpassVoltage
      else s.lastTickVoltageValue
    let fire :=
      s.startVoltage > 0 ∧ tickLowpassVoltage < s.tickVoltage ∧
        |lastTickVoltageValue - tickLowpassVoltage| > 1/10 ∧
        lpVoltage < s.tickVoltage ∧
        currentVoltage > 33/10 ∧
        currentVoltage - 2/10 < s.tickVoltage ∧
        usub64 nowUsec s.lastVoltageWarning > 20000000
    let lastVoltageWarning := if fire then nowUsec else s.lastVoltageWarning
    let lastTickVoltageValue := if fire then tickLowpassVoltage else lastTickVoltageValue
    let startVoltage :=
      if s.startVoltage = -1 ∧ currentVoltage > 1/10 then currentVoltage else s.startVoltage
    ({ startVoltage := startVoltage, tickVoltage := s.tickVoltage,
       lastTickVoltageValue := lastTickVoltageValue,
       tickLowpassVoltage := tickLowpassVoltage, lpVoltage := lpVoltage,
       currentVoltage := currentVoltage, lastVoltageWarning := lastVoltageWarning },
      decide fire)
  else (s, false)

/-- C5 counterexample: the claim lists as sufficient conditions for the
alert a tick-tracker crossing below the threshold with more than 0.1 V of
movement, lowpass below the threshold and the sample above the sanity
floor.  From the constructor-initial battery state (startVoltage -1, tick
threshold 10.5 V, tick tracker 12 V, last tick value 13 V, unseeded
lowpass) a 4.000 V sample at ground time 30 s satisfies every listed
condition, yet no alert fires, because the guard also requires a start
voltage that is only seeded after the check. -/
theorem c5_startVoltage_counterexample :
    ((sysStatusBattery ⟨-1, 21/2, 13, 12, -1, 63/5, 0⟩ 4000 30000000).2 = false) ∧
      ((12 : ℚ) * (8/10) + (2/10) * ((4000 : ℚ)/1000) < 21/2) ∧
      (|(13 : ℚ) - (12 * (8/10) + (2/10) * ((4000 : ℚ)/1000))| > 1/10) ∧
      (filterVoltage (-1) ((4000 : ℚ)/1000) < 21/2) ∧
      ((4000 : ℚ)/1000 > 33/10) ∧
      (usub64 30000000 0 > 20000000) := by
  refine ⟨by decide, by norm_num, ?_, by norm_num [filterVoltage], by norm_num, ?_⟩
  · rw [abs_of_pos (by norm_num)]
    norm_num
  · rw [usub64_of_le (by norm_num) (by norm_num [W])]
    norm_num

/-- C5 amended: the alert fires exactly once per qualifying message, where
qualifying additionally requires (beyond the crossing, movement, lowpass
and sanity-floor conditions of the claim) that the start voltage is already
established as positive, that the sample is less than 0.2 V above the tick
threshold, and that more than 20 s have elapsed since the last alert; the
firing records the alert time, so a second qualifying message within the
20-second cooldown does not fire. -/
theorem c5_battery_tick_amended :
    (∀ (s : BatteryState) (vb now : Nat),
      0 < vb → vb ≠ 65535 →
      s.startVoltage > 0 →
      s.tickLowpassVoltage * (8/10) + (2/10) * ((vb : ℚ)/1000) < s.tickVoltage →
      |s.lastTickVoltageValue - (s.tickLowpassVoltage * (8/10) + (2/10) * ((vb : ℚ)/1000))|
          > 1/10 →
      filterVoltage s.lpVoltage ((vb : ℚ)/1000) < s.tickVoltage →
      (vb : ℚ)/1000 > 33/10 →
      (vb : ℚ)/1000 - 2/10 < s.tickVoltage →
      usub64 now s.lastVoltageWarning > 20000000 →
      (sysStatusBattery s vb now).2 = true ∧
        (sysStatusBattery s vb now).1.lastVoltageWarning = now) ∧
    (∀ (s : BatteryState) (vb now : Nat),
      usub64 now s.lastVoltageWarning ≤ 20000000 →
      (sysStatusBattery s vb now).2 = false) := by
  constructor
  · intro s vb now hvb hvb2 hstart hcross hmove hlp hflr hnear hcool
    have hnottick : ¬ (s.tickLowpassVoltage * (8/10) + (2/10) * ((vb : ℚ)/1000)
        > s.tickVoltage) := by
      push_neg
      exact le_of_lt hcross
    have hfire0 : s.startVoltage > 0 ∧
        s.tickLowpassVoltage * (8/10) + (2/10) * ((vb : ℚ)/1000) < s.tickVoltage ∧
        |s.lastTickVoltageValue -
          (s.tickLowpassVoltage * (8/10) + (2/10) * ((vb : ℚ)/1000))| > 1/10 ∧
        filterVoltage s.lpVoltage ((vb : ℚ)/1000) < s.tickVoltage ∧
        (vb : ℚ)/1000 > 33/10 ∧
        (vb : ℚ)/1000 - 2/10 < s.tickVoltage ∧
        usub64 now s.lastVoltageWarning > 20000000 :=
      ⟨hstart, hcross, hmove, hlp, hflr, hnear, hcool⟩
    rw [sysStatusBattery]
    rw [if_pos ⟨hvb, hvb2⟩]
    simp only [if_neg hnottick]
    simp only [if_pos hfire0, decide_eq_true_eq]
    exact ⟨hfire0, trivial⟩
  · intro s vb now hcool
    rw [sysStatusBattery]
    by_cases hvb : 0 < vb ∧ vb ≠ 65535
    · rw [if_pos hvb]
      simp only [decide_eq_true_eq]
      have : ¬ (s.startVoltage > 0 ∧
          s.tickLowpassVoltage * (8/10) + (2/10) * ((vb : ℚ)/1000) < s.tickVoltage ∧
          |(if s.tickLowpassVoltage * (8/10) + (2/10) * ((vb : ℚ)/1000) > s.tickVoltage
              then s.tickLowpassVoltage * (8/10) + (2/10) * ((vb : ℚ)/1000)
              else s.lastTickVoltageValue) -
            (s.tickLowpassVoltage * (8/10) + (2/10) * ((vb : ℚ)/1000))| > 1/10 ∧
          filterVoltage s.lpVoltage ((vb : ℚ)/1000) < s.tickVoltage ∧
          (vb : ℚ)/1000 > 33/10 ∧
          (vb : ℚ)/1000 - 2/10 < s.tickVoltage ∧
          usub64 now s.lastVoltageWarning > 20000000) := by
        rintro ⟨-, -, -, -, -, -, h⟩
        omega
      exact decide_eq_false this
    · rw [if_neg hvb]

/-- C5 witness: the amended theorem applied to a state with start voltage
established at 4 V, tick tracker crossing from 12 V to 10.4 V against the
10.5 V threshold, a 4.000 V sample, and 30 s since the last alert; and the
cooldown half applied to the resulting state 5 s later. -/
theorem c5_battery_tick_witness :
    ((sysStatusBattery ⟨4, 21/2, 13, 12, 4, 4, 0⟩ 4000 30000000).2 = true ∧
      (sysStatusBattery ⟨4, 21/2, 13, 12, 4, 4, 0⟩ 4000 30000000).1.lastVoltageWarning
        = 30000000) ∧
      (sysStatusBattery ⟨4, 21/2, 104/10, 104/10, 4, 4, 30000000⟩ 4000 35000000).2 = false := by
  constructor
  · refine c5_battery_tick_amended.1 ⟨4, 21/2, 13, 12, 4, 4, 0⟩ 4000 30000000
      (by decide) (by decide) (by norm_num) (by norm_num) ?_ (by norm_num [filterVoltage])
      (by norm_num) (by norm_num) ?_
    · rw [abs_of_pos (by norm_num)]
      norm_num
    · rw [usub64_of_le (by norm_num) (by norm_num [W])]
      norm_num
  · refine c5_battery_tick_amended.2 ⟨4, 21/2, 104/10, 104/10, 4, 4, 30000000⟩ 4000 35000000 ?_
    rw [usub64_of_le (by norm_num) (by norm_num [W])]
    norm_num

/-! Image transfer: DATA_TRANSMISSION_HANDSHAKE and ENCAPSULATED_DATA
(UAS.cc lines 993-1044)

The receive buffer is modelled as a function from byte offset to byte
value. -/

structure ImageState where
  imageSize : Nat
  imagePackets : Nat
  imagePayload : Nat
  imageQuality : Nat
  imageType : Nat
  imageWidth : Nat
  imageHeight : Nat
  imageStart : Nat
  imagePacketsArrived : Nat
  imageRecBuffer : Nat → Nat

/-- The DATA_TRANSMISSION_HANDSHAKE case: copy the announced transfer
parameters and reset the arrived-packet counter.  nowMs is
QGC::groundTimeMilliseconds(). -/
def handshake (s : ImageState)
    (size packets payload quality ty width height nowMs : Nat) : ImageState :=
  { s with imageSize := size, imagePackets := packets, imagePayload := payload,
           imageQuality := quality, imageType := ty, imageWidth := width,
           imageHeight := height, imageStart := nowMs, imagePacketsArrived := 0 }

/-- The byte-copy loop of the ENCAPSULATED_DATA case: for i below the
payload size, write data byte i at offset startPos + i whenever that offset
is at most imageSize (the source guard is pos <= imageSize). -/
def writeBytes (buf data : Nat → Nat) (startPos imageSize : Nat) : Nat → (Nat → Nat)
  | 0 => buf
  | i + 1 =>
    let buf1 := writeBytes buf data startPos imageSize i
    if startPos + i ≤ imageSize then Function.update buf1 (startPos + i) (data i) else buf1

/-- The ENCAPSULATED_DATA case: a chunk arriving with no transfer in
progress only resets the arrived counter; otherwise its payload is copied
at offset seq * imagePayload, the arrived counter is incremented, and when
it reaches the announced packet count the transfer state resets and the
imageReady notification fires (the returned Bool). -/
def encapsulatedData (s : ImageState) (seq : Nat) (data : Nat → Nat) :
    ImageState × Bool :=
  let pos := seq * s.imagePayload
  if s.imagePackets = 0 then
    ({ s with imagePacketsArrived := 0 }, false)
  else
    let buf := writeBytes s.imageRecBuffer data pos s.imageSize s.imagePayload
    let arrived := s.imagePacketsArrived + 1
    if arrived ≥ s.imagePackets then
      ({ s with imageRecBuffer := buf, imagePackets := 0, imagePacketsArrived := 0 }, true)
    else
      ({ s with imageRecBuffer := buf, imagePacketsArrived := arrived }, false)

/-- Fold encapsulatedData over a list of (sequence number, payload) chunks,
collecting the imageReady notifications in order. -/
def runChunks (s : ImageState) : List (Nat × (Nat → Nat)) → ImageState × List Bool
  | [] => (s, [])
  | (seq, d) :: rest =>
    let p := encapsulatedData s seq d
    let q := runChunks p.1 rest
    (q.1, p.2 :: q.2)

/-- During an active transfer expecting more chunks than have arrived,
feeding exactly the missing number of chunks fires imageReady only at the
last one and resets both counters. -/
theorem runChunks_completes (chunks : List (Nat × (Nat → Nat))) :
    ∀ (s : ImageState), s.imagePackets ≠ 0 →
    chunks ≠ [] →
    chunks.length + s.imagePacketsArrived = s.imagePackets →
    (runChunks s chunks).2 = List.replicate (chunks.length - 1) false ++ [true] ∧
      (runChunks s chunks).1.imagePackets = 0 ∧
      (runChunks s chunks).1.imagePacketsArrived = 0 := by
  induction chunks with
  | nil => intro s _ hne _; exact absurd rfl hne
  | cons c rest ih =>
    obtain ⟨seq, d⟩ := c
    intro s hp _ hlen
    simp only [List.length_cons] at hlen
    cases rest with
    | nil =>
      -- last chunk: the arrived counter reaches the announced count
      have harr : s.imagePacketsArrived + 1 ≥ s.imagePackets := by
        simp only [List.length_nil] at hlen
        omega
      rw [runChunks, encapsulatedData]
      simp only [if_neg hp, if_pos harr, runChunks]
      simp
    | cons c2 rest2 =>
      -- more chunks follow: no notification yet
      have harr : ¬ (s.imagePacketsArrived + 1 ≥ s.imagePackets) := by
        simp only [List.length_cons] at hlen
        omega
      rw [runChunks, encapsulatedData]
      simp only [if_neg hp, if_neg harr]
      have hrec := ih
        { s with
            imageRecBuffer :=
              writeBytes s.imageRecBuffer d (seq * s.imagePayload) s.imageSize s.imagePayload,
            imagePacketsArrived := s.imagePacketsArrived + 1 }
        hp (by simp) (by simp only [List.length_cons] at hlen ⊢; omega)
      refine ⟨?_, hrec.2.1, hrec.2.2⟩
      rw [hrec.1]
      simp only [List.length_cons]
      rw [show rest2.length + 1 + 1 - 1 = (rest2.length + 1 - 1) + 1 from by omega]
      rw [List.replicate_succ]
      simp

/-- C6: after a handshake announcing a positive packet count N, feeding N
chunks fires the imageReady notification exactly at the Nth chunk, at which
point the announced and arrived packet counters are both reset; and a chunk
arriving with no transfer in progress (announced packet count zero) is
dropped, only resetting the arrived-packet counter. -/
theorem c6_image_transfer_complete (s0 : ImageState)
    (size N payload quality ty width height nowMs : Nat)
    (chunks : List (Nat × (Nat → Nat)))
    (hN : 0 < N) (hlen : chunks.length = N) :
    ((runChunks (handshake s0 size N payload quality ty width height nowMs) chunks).2 =
        List.replicate (N - 1) false ++ [true] ∧
      (runChunks (handshake s0 size N payload quality ty width height nowMs)
          chunks).1.imagePackets = 0 ∧
      (runChunks (handshake s0 size N payload quality ty width height nowMs)
          chunks).1.imagePacketsArrived = 0) ∧
    (∀ (s : ImageState) (seq : Nat) (data : Nat → Nat), s.imagePackets = 0 →
      encapsulatedData s seq data = ({ s with imagePacketsArrived := 0 }, false)) := by
  constructor
  · have h := runChunks_completes chunks
      (handshake s0 size N payload quality ty width height nowMs)
      (by simp only [handshake]; omega)
      (by intro h; rw [h] at hlen; simp at hlen; omega)
      (by simp only [handshake]; omega)
    rw [hlen] at h
    exact h
  · intro s seq data hz
    rw [encapsulatedData, if_pos hz]

/-- C6 witness: a handshake announcing 2 packets followed by 2 chunks emits
no notification at the first chunk and imageReady at the second, resetting
both counters; a chunk against an idle transfer state only clears the
arrived counter. -/
theorem c6_image_transfer_witness :
    ((runChunks (handshake ⟨0, 0, 0, 0, 0, 0, 0, 0, 0, fun _ => 0⟩ 7 2 4 50 0 3 3 111)
        [(0, fun _ => 1), (1, fun _ => 2)]).2 =
        List.replicate (2 - 1) false ++ [true] ∧
      (runChunks (handshake ⟨0, 0, 0, 0, 0, 0, 0, 0, 0, fun _ => 0⟩ 7 2 4 50 0 3 3 111)
        [(0, fun _ => 1), (1, fun _ => 2)]).1.imagePackets = 0 ∧
      (runChunks (handshake ⟨0, 0, 0, 0, 0, 0, 0, 0, 0, fun _ => 0⟩ 7 2 4 50 0 3 3 111)
        [(0, fun _ => 1), (1, fun _ => 2)]).1.imagePacketsArrived = 0) ∧
    (∀ (s : ImageState) (seq : Nat) (data : Nat → Nat), s.imagePackets = 0 →
      encapsulatedData s seq data = ({ s with imagePacketsArrived := 0 }, false)) :=
  c6_image_transfer_complete ⟨0, 0, 0, 0, 0, 0, 0, 0, 0, fun _ => 0⟩ 7 2 4 50 0 3 3 111
    [(0, fun _ => 1), (1, fun _ => 2)] (by decide) (by simp)

/-- Offsets outside the written window, or beyond the bound check, are
untouched by the byte-copy loop. -/
theorem writeBytes_untouched (buf data : Nat → Nat) (startPos imageSize : Nat) :
    ∀ (n j : Nat), (j < startPos ∨ startPos + n ≤ j ∨ imageSize < j) →
      writeBytes buf data startPos imageSize n j = buf j := by
  intro n
  induction n with
  | zero => intro j _; rfl
  | succ i ih =>
    intro j hj
    rw [writeBytes]
    by_cases hle : startPos + i ≤ imageSize
    · rw [if_pos hle]
      rw [Function.update_noteq (by omega)]
      exact ih j (by omega)
    · rw [if_neg hle]
      exact ih j (by omega)

/-- Each in-bounds payload byte lands at its own offset. -/
theorem writeBytes_at (buf data : Nat → Nat) (startPos imageSize : Nat) :
    ∀ (n i : Nat), i < n → startPos + i ≤ imageSize →
      writeBytes buf data startPos imageSize n (startPos + i) = data i := by
  intro n
  induction n with
  | zero => intro i hi _; omega
  | succ m ih =>
    intro i hi hle
    rw [writeBytes]
    by_cases heq : i = m
    · subst heq
      rw [if_pos hle, Function.update_same]
    · have hlt : i < m := by omega
      by_cases hm : startPos + m ≤ imageSize
      · rw [if_pos hm, Function.update_noteq (by omega)]
        exact ih i hlt hle
      · rw [if_neg hm]
        exact ih i hlt hle

/-- C7 counterexample: the claim asserts every index actually written lies
within the announced total image size.  With an announced size of 4 bytes
(valid offsets 0 through 3), a payload of 5 and sequence number 0, the
bound check pos <= imageSize admits the write at offset 4: the byte at
offset exactly imageSize is overwritten. -/
theorem c7_offbyone_counterexample :
    (encapsulatedData ⟨4, 2, 5, 0, 0, 0, 0, 0, 0, fun _ => 0⟩ 0
        (fun _ => 9)).1.imageRecBuffer 4 = 9 := by
  decide

/-- C7 amended: during an active transfer each payload byte i is written at
offset sequenceNumber * payloadSize + i whenever that offset is at most the
announced total image size, and every offset whose content changes is of
that form and at most the announced size: the guard pos <= imageSize admits
the offset equal to imageSize, one past the last valid offset of a buffer
of that size, and excludes everything beyond. -/
theorem c7_chunk_write_amended (s : ImageState) (seq : Nat) (data : Nat → Nat)
    (hp : s.imagePackets ≠ 0) :
    (∀ j, (encapsulatedData s seq data).1.imageRecBuffer j ≠ s.imageRecBuffer j →
      (∃ i, i < s.imagePayload ∧ j = seq * s.imagePayload + i) ∧ j ≤ s.imageSize) ∧
    (∀ i, i < s.imagePayload → seq * s.imagePayload + i ≤ s.imageSize →
      (encapsulatedData s seq data).1.imageRecBuffer (seq * s.imagePayload + i) = data i) := by
  have hbuf : (encapsulatedData s seq data).1.imageRecBuffer =
      writeBytes s.imageRecBuffer data (seq * s.imagePayload) s.imageSize s.imagePayload := by
    rw [encapsulatedData, if_neg hp]
    by_cases harr : s.imagePacketsArrived + 1 ≥ s.imagePackets
    · rw [if_pos harr]
    · rw [if_neg harr]
  constructor
  · intro j hj
    rw [hbuf] at hj
    by_cases hcase : j < seq * s.imagePayload ∨ seq * s.imagePayload + s.imagePayload ≤ j ∨
        s.imageSize < j
    · exact absurd (writeBytes_untouched s.imageRecBuffer data (seq * s.imagePayload)
        s.imageSize s.imagePayload j hcase) hj
    · push_neg at hcase
      exact ⟨⟨j - seq * s.imagePayload, by omega, by omega⟩, hcase.2.2⟩
  · intro i hi hle
    rw [hbuf]
    exact writeBytes_at s.imageRecBuffer data (seq * s.imagePayload) s.imageSize
      s.imagePayload i hi hle

/-- C7 witness: the amended theorem on a transfer with payload 3 and size
10: the chunk with sequence number 2 writes its byte 1 at offset 7. -/
theorem c7_chunk_write_witness :
    (encapsulatedData ⟨10, 5, 3, 0, 0, 0, 0, 0, 0, fun _ => 0⟩ 2
        (fun i => 40 + i)).1.imageRecBuffer (2 * 3 + 1) = 40 + 1 :=
  (c7_chunk_write_amended ⟨10, 5, 3, 0, 0, 0, 0, 0, 0, fun _ => 0⟩ 2
      (fun i => 40 + i) (by decide)).2 1 (by decide) (by decide)

/-! Quaternion to Euler extraction: ATTITUDE_QUATERNION case
(UAS.cc lines 585-627)

The float arithmetic building the direction-cosine matrix is modelled over
exact rationals; the C library functions asin and atan2 are abstract
function parameters, so the theorems capture the branch structure and the
exact arguments handed to atan2. -/

/-- The direction-cosine matrix entries computed from the quaternion
components a, b, c, d (row, column indices 0-2; other indices 0). -/
def dcmEntry (a b c d : ℚ) : Nat → Nat → ℚ
  | 0, 0 => a * a + b * b - c * c - d * d
  | 0, 1 => 2 * (b * c - a * d)
  | 0, 2 => 2 * (a * c + b * d)
  | 1, 0 => 2 * (b * c + a * d)
  | 1, 1 => a * a - b * b + c * c - d * d
  | 1, 2 => 2 * (c * d - a * b)
  | 2, 0 => 2 * (b * d - a * c)
  | 2, 1 => 2 * (a * b + c * d)
  | 2, 2 => a * a - b * b - c * c + d * d
  | _, _ => 0

/-- The float constant M_PI_2 as a rational. -/
def M_PI_2_f : ℚ := 1.5707963267948966

/-- Euler extraction from a quaternion as in the ATTITUDE_QUATERNION case:
theta = asin(-dcm[2][0]); within 1e-3 of +pi/2 the roll phi is set to 0 and
psi = atan2(dcm[1][2] - dcm[0][1], dcm[0][2] + dcm[1][1]) + phi; within
1e-3 of -pi/2 likewise phi = 0 and psi = atan2(dcm[1][2] - dcm[0][1],
dcm[0][2] + dcm[1][1] - phi); otherwise the generic extraction.  Returns
(phi, theta, psi). -/
def quatToEuler (asinQ : ℚ → ℚ) (atan2Q : ℚ → ℚ → ℚ) (a b c d : ℚ) :
    ℚ × ℚ × ℚ :=
  let dcm := dcmEntry a b c d
  let theta := asinQ (-(dcm 2 0))
  if |theta - M_PI_2_f| < 1/1000 then
    let phi : ℚ := 0
    (phi, theta, atan2Q (dcm 1 2 - dcm 0 1) (dcm 0 2 + dcm 1 1) + phi)
  else if |theta + M_PI_2_f| < 1/1000 then
    let phi : ℚ := 0
    (phi, theta, atan2Q (dcm 1 2 - dcm 0 1) (dcm 0 2 + dcm 1 1 - phi))
  else
    (atan2Q (dcm 2 1) (dcm 2 2), theta, atan2Q (dcm 1 0) (dcm 0 0))

/-- C8: near either gimbal-lock pitch the extraction sets roll to zero and
derives yaw as atan2 of the combined off-diagonal terms dcm[1][2] -
dcm[0][1] over dcm[0][2] + dcm[1][1]; in the +pi/2 branch the zero roll is
added to the atan2 value and in the -pi/2 branch it is subtracted from the
second argument, so both branches reduce to the same combined-term
formula. -/
theorem c8_gimbal_lock (asinQ : ℚ → ℚ) (atan2Q : ℚ → ℚ → ℚ) (a b c d : ℚ) :
    (|asinQ (-(dcmEntry a b c d 2 0)) - M_PI_2_f| < 1/1000 →
      quatToEuler asinQ atan2Q a b c d =
        (0, asinQ (-(dcmEntry a b c d 2 0)),
          atan2Q (dcmEntry a b c d 1 2 - dcmEntry a b c d 0 1)
            (dcmEntry a b c d 0 2 + dcmEntry a b c d 1 1))) ∧
    (|asinQ (-(dcmEntry a b c d 2 0)) + M_PI_2_f| < 1/1000 →
      quatToEuler asinQ atan2Q a b c d =
        (0, asinQ (-(dcmEntry a b c d 2 0)),
          atan2Q (dcmEntry a b c d 1 2 - dcmEntry a b c d 0 1)
            (dcmEntry a b c d 0 2 + dcmEntry a b c d 1 1))) := by
  constructor
  · intro hhi
    rw [quatToEuler]
    simp only [if_pos hhi, add_zero]
  · intro hlo
    have hnothi : ¬ |asinQ (-(dcmEntry a b c d 2 0)) - M_PI_2_f| < 1/1000 := by
      intro hhi
      have h1 := abs_lt.mp hhi
      have h2 := abs_lt.mp hlo
      have hc : 2 * M_PI_2_f < 2/1000 := by linarith [h1.1, h2.2]
      norm_num [M_PI_2_f] at hc
    rw [quatToEuler]
    simp only [if_neg hnothi, if_pos hlo, sub_zero]

/-- C8 witness: both branch conclusions at an abstract-function instance
where asin returns exactly +pi/2 resp. -pi/2. -/
theorem c8_gimbal_lock_witness :
    quatToEuler (fun _ => M_PI_2_f) (fun x y => x - y) 0 0 0 0 =
      (0, (fun _ : ℚ => M_PI_2_f) (-(dcmEntry 0 0 0 0 2 0)),
        (fun x y : ℚ => x - y) (dcmEntry 0 0 0 0 1 2 - dcmEntry 0 0 0 0 0 1)
          (dcmEntry 0 0 0 0 0 2 + dcmEntry 0 0 0 0 1 1)) :=
  (c8_gimbal_lock (fun _ => M_PI_2_f) (fun x y => x - y) 0 0 0 0).1
    (by norm_num)

/-! COMMAND_ACK handling: UAS.cc lines 899-946

The COMMAND_ACK case emits one textMessageReceived notification chosen by
the MAV_RESULT code (0 accepted, 1 temporarily rejected, 2 denied, 3
unsupported, 4 failed, anything else nothing) and then, because the case
has no break statement, control falls through into the ATTITUDE_TARGET
case, which decodes the same message as an attitude target and emits
attitudeThrustSetPointChanged plus the three setpoint plotting
valueChanged notifications (roll sp, pitch sp, yaw sp). -/

inductive AckEvent where
  | cmdText (result : Nat)
  | attitudeThrustSetPoint
  | setpointPlot (axis : Nat)
deriving Repr, DecidableEq

/-- Event trace of processing a COMMAND_ACK message with the given result
code, including the fall-through into the ATTITUDE_TARGET case. -/
def handleCommandAck (result : Nat) : List AckEvent :=
  let ackEvents :=
    if result = 0 then [AckEvent.cmdText 0]
    else if result = 1 then [AckEvent.cmdText 1]
    else if result = 2 then [AckEvent.cmdText 2]
    else if result = 3 then [AckEvent.cmdText 3]
    else if result = 4 then [AckEvent.cmdText 4]
    else []
  ackEvents ++
    [AckEvent.attitudeThrustSetPoint, AckEvent.setpointPlot 0,
      AckEvent.setpointPlot 1, AckEvent.setpointPlot 2]

/-- C10: the claim asserts a COMMAND_ACK emits only its command-result text
notification and no attitude-thrust-setpoint or setpoint plotting
notifications.  The COMMAND_ACK case lacks a break, so an accepted
command acknowledgment (result 0) also runs the ATTITUDE_TARGET handling
and emits the setpoint notifications. -/
theorem c10_command_ack_fallthrough :
    handleCommandAck 0 =
      [AckEvent.cmdText 0, AckEvent.attitudeThrustSetPoint, AckEvent.setpointPlot 0,
        AckEvent.setpointPlot 1, AckEvent.setpointPlot 2] ∧
      AckEvent.attitudeThrustSetPoint ∈ handleCommandAck 0 := by
  constructor
  · rfl
  · decide

end UASModel
